import Mathlib

/-!
Verification of the gravitational N-body simulator (`src/main.rs`).

The Rust source works on `f32`; the shallow embedding models every scalar
as a real number, `macroquad::Vec2` as a pair of reals, and `VecDeque`
trails as Lean lists (front of the deque = head of the list).  The frame
loop's simulation portion (cull, pairwise gravity over a snapshot, move)
is modelled as an explicit `tick` function on the list of planets; the
pause key is a boolean parameter held fixed for the whole tick, and the
random generator of `random_setup` is replaced by explicit draw
parameters, constrained exactly as `rand::gen_range` constrains them.
-/

noncomputable section

namespace Planets

/-- Planar vector with real components, modelling `macroquad::math::Vec2` (f32 pairs). -/
@[ext]
structure Vec2 where
  x : ℝ
  y : ℝ

namespace Vec2

/-- Componentwise addition, as glam's `Add for Vec2`. -/
instance : Add Vec2 :=
  ⟨fun a b => ⟨a.x + b.x, a.y + b.y⟩⟩

/-- Componentwise subtraction, as glam's `Sub for Vec2`. -/
instance : Sub Vec2 :=
  ⟨fun a b => ⟨a.x - b.x, a.y - b.y⟩⟩

/-- Scalar multiplication on the right, as glam's `Mul<f32> for Vec2`. -/
instance : HMul Vec2 ℝ Vec2 :=
  ⟨fun v c => ⟨v.x * c, v.y * c⟩⟩

/-- The zero vector, `Vec2::ZERO` (also `Vec2::default()`). -/
instance : Zero Vec2 :=
  ⟨⟨0, 0⟩⟩

@[simp] theorem add_x (a b : Vec2) : (a + b).x = a.x + b.x := rfl

@[simp] theorem add_y (a b : Vec2) : (a + b).y = a.y + b.y := rfl

@[simp] theorem sub_x (a b : Vec2) : (a - b).x = a.x - b.x := rfl

@[simp] theorem sub_y (a b : Vec2) : (a - b).y = a.y - b.y := rfl

@[simp] theorem smul_x (v : Vec2) (c : ℝ) : (v * c).x = v.x * c := rfl

@[simp] theorem smul_y (v : Vec2) (c : ℝ) : (v * c).y = v.y * c := rfl

@[simp] theorem zero_x : (0 : Vec2).x = 0 := rfl

@[simp] theorem zero_y : (0 : Vec2).y = 0 := rfl

/-- Vectors form an additive commutative monoid (used to sum gravity deltas). -/
instance : AddCommMonoid Vec2 where
  add_assoc a b c := by ext <;> simp [add_assoc]
  zero_add a := by ext <;> simp
  add_zero a := by ext <;> simp
  add_comm a b := by ext <;> simp [add_comm]
  nsmul := nsmulRec

/-- Squared Euclidean length, `Vec2::length_squared`. -/
def length_sq (v : Vec2) : ℝ := v.x ^ 2 + v.y ^ 2

/-- Euclidean length, `Vec2::length`. -/
def length (v : Vec2) : ℝ := Real.sqrt v.length_sq

/-- Distance between two points, `Vec2::distance`. -/
def distance (a b : Vec2) : ℝ := (a - b).length

/-- Squared distance, `Vec2::distance_squared`. -/
def distance_squared (a b : Vec2) : ℝ := (a - b).length_sq

/-- Normalization `Vec2::normalize`: the vector scaled by the reciprocal of its
length.  (On a zero vector glam's f32 version produces NaN; in the real model
`1 / 0 = 0`, and the zero-length case is excluded by preconditions anyway.) -/
def normalize (v : Vec2) : Vec2 := v * (1 / v.length)

/-- Dot product, used to state perpendicularity. -/
def dot (a b : Vec2) : ℝ := a.x * b.x + a.y * b.y

theorem length_sq_nonneg (v : Vec2) : 0 ≤ v.length_sq :=
  add_nonneg (sq_nonneg _) (sq_nonneg _)

theorem length_nonneg (v : Vec2) : 0 ≤ v.length := Real.sqrt_nonneg _

theorem length_sq_eq_zero_iff (v : Vec2) : v.length_sq = 0 ↔ v = 0 := by
  unfold length_sq
  constructor
  · intro h
    have hx : v.x ^ 2 = 0 ∧ v.y ^ 2 = 0 :=
      (add_eq_zero_iff_of_nonneg (sq_nonneg _) (sq_nonneg _)).mp h
    ext
    · exact sq_eq_zero_iff.mp hx.1
    · exact sq_eq_zero_iff.mp hx.2
  · intro h
    subst h
    simp

theorem length_eq_zero_iff (v : Vec2) : v.length = 0 ↔ v = 0 := by
  unfold length
  rw [Real.sqrt_eq_zero (length_sq_nonneg v)]
  exact length_sq_eq_zero_iff v

theorem length_pos_of_ne_zero {v : Vec2} (h : v ≠ 0) : 0 < v.length :=
  lt_of_le_of_ne (length_nonneg v) (fun h0 => h ((length_eq_zero_iff v).mp h0.symm))

theorem length_smul (v : Vec2) (c : ℝ) : (v * c).length = |c| * v.length := by
  unfold length length_sq
  have : (v * c).x ^ 2 + (v * c).y ^ 2 = c ^ 2 * (v.x ^ 2 + v.y ^ 2) := by
    simp
    ring
  rw [this, Real.sqrt_mul (sq_nonneg c), Real.sqrt_sq_eq_abs]

theorem length_normalize {v : Vec2} (h : v ≠ 0) : v.normalize.length = 1 := by
  unfold normalize
  rw [length_smul]
  have hp : 0 < v.length := length_pos_of_ne_zero h
  rw [abs_of_pos (by positivity)]
  field_simp

theorem dot_smul_left (v : Vec2) (c : ℝ) (w : Vec2) :
    dot (v * c) w = c * dot v w := by
  unfold dot
  simp
  ring

theorem sub_eq_zero_iff (a b : Vec2) : a - b = 0 ↔ a = b := by
  constructor
  · intro h
    have hx := congrArg Vec2.x h
    have hy := congrArg Vec2.y h
    simp at hx hy
    ext
    · linarith
    · linarith
  · intro h
    subst h
    ext <;> simp

end Vec2

/-- Constant `TRAIL_LENGTH` from the source: trail capacity. -/
def TRAIL_LENGTH : ℕ := 1000

/-- Constant `SCALE_FACTOR` from the source (`10e6`, i.e. `10 * 10^6`). -/
def SCALE_FACTOR : ℝ := 10e6

/-- Gravitational constant as scaled in the source: `6.674e-11 * SCALE_FACTOR`. -/
def G : ℝ := 6.674e-11 * SCALE_FACTOR

/-- Constant `MAX_SPEED` from the source. -/
def MAX_SPEED : ℝ := 2

/-- Constant `MAX_ORBIT_RADIUS` from the source. -/
def MAX_ORBIT_RADIUS : ℝ := 400

/-- Constant `ORBIT_ELLIPTICITY` from the source. -/
def ORBIT_ELLIPTICITY : ℝ := 0.8

/-- Constant `CULL_DISTANCE` from the source. -/
def CULL_DISTANCE : ℝ := 1500

/-- RGBA color; components kept abstract as naturals (u8 values in the source). -/
structure Color where
  r : ℕ
  g : ℕ
  b : ℕ
  a : ℕ
deriving DecidableEq

/-- A body of the simulation, `struct Planet` from the source; the default
values mirror `#[derive(Default)]` (zero vectors, zero mass, empty trail). -/
structure Planet where
  pos : Vec2 := 0
  mass : ℝ := 0
  velocity : Vec2 := 0
  color : Color := ⟨0, 0, 0, 0⟩
  trail : List Vec2 := []

namespace Planet

/-- Method `Planet::gravitate`: adds `dir * a` to the planet's velocity, where
`a = G * other.mass / distance_squared` and `dir` is the normalized vector
from `self` toward `other`.  (The source comments that both quantities are
notionally divided by `self.mass`; no such division occurs in the code.) -/
def gravitate (self other : Planet) : Planet :=
  let d := Vec2.distance_squared self.pos other.pos
  let f := G * other.mass / d
  let a := f
  let dir := Vec2.normalize (other.pos - self.pos)
  { self with velocity := self.velocity + dir * a }

/-- Method `Planet::apply_velocity`: push the current position onto the front of the
trail, truncate the trail to `TRAIL_LENGTH`, then displace the position by
`velocity * 1.0` (the local `SCALE_FACTOR` constant is `1.0`). -/
def apply_velocity (self : Planet) : Planet :=
  { self with
    trail := (self.pos :: self.trail).take TRAIL_LENGTH
    pos := self.pos + self.velocity * (1.0 : ℝ) }

end Planet

/-- The velocity delta a single `gravitate` call adds: it depends only on the
two snapshot positions and the other body's mass. -/
def gravityDelta (self other : Planet) : Vec2 :=
  Vec2.normalize (other.pos - self.pos) *
    (G * other.mass / Vec2.distance_squared self.pos other.pos)

/-- Function `orbit_velocity`: speed `sqrt(G * (M + m) / dist)` clamped to `MAX_SPEED`,
along the radius vector rotated by 90 degrees and normalized, plus the
center's velocity. -/
def orbit_velocity (sat center : Planet) : Vec2 :=
  let dist := Vec2.distance sat.pos center.pos
  let speed := Real.sqrt (G * (center.mass + sat.mass) / dist)
  let diff := sat.pos - center.pos
  let tan := Vec2.normalize ⟨-diff.y, diff.x⟩
  let speed2 := min speed MAX_SPEED
  tan * speed2 + center.velocity

/-- The cull step of the frame loop:
`objects.retain_mut(|p| p.pos.length() <= CULL_DISTANCE)`. -/
def cull (objects : List Planet) : List Planet :=
  objects.filter fun p => decide (p.pos.length ≤ CULL_DISTANCE)

/-- The inner loop of force accumulation: fold `gravitate` over the indexed
snapshot, skipping the body's own index and doing nothing while the space key
(pause) is down. -/
def accumulatePass (paused : Bool) (i : ℕ) (copy : List (ℕ × Planet))
    (obj : Planet) : Planet :=
  copy.foldl
    (fun acc jp => if i ≠ jp.1 ∧ paused = false then acc.gravitate jp.2 else acc)
    obj

/-- The force-accumulation phase: every body, identified by its index, folds
`gravitate` over the snapshot (`let copy = objects.clone()`) of the whole
collection taken before any body was updated. -/
def gravitateAll (paused : Bool) (objects : List Planet) : List Planet :=
  objects.enum.map fun ip => accumulatePass paused ip.1 objects.enum ip.2

/-- One frame of the simulation portion of the main loop, with the pause key
state held fixed for the whole frame: cull far bodies first, then accumulate
gravity over a snapshot, then (unless paused) move every body. -/
def tick (paused : Bool) (objects : List Planet) : List Planet :=
  let culled := cull objects
  let accelerated := gravitateAll paused culled
  if paused then accelerated else accelerated.map Planet.apply_velocity

/-- The sun built by `random_setup`: mass `1500000.`, fixed color, and all
other fields from `Default` (zero position, zero velocity, empty trail). -/
def sun : Planet :=
  { mass := 1500000, color := ⟨249, 182, 17, 255⟩ }

/-- One satellite's worth of random draws made by `random_setup`: the two
position coordinates, the mass, the three color channels, and the
ellipticity perturbation added to the x velocity. -/
structure SatDraw where
  px : ℝ
  py : ℝ
  mass : ℝ
  cr : ℕ
  cg : ℕ
  cb : ℕ
  ell : ℝ

/-- The ranges `rand::gen_range` guarantees for one satellite's draws:
coordinates in `[-MAX_ORBIT_RADIUS, MAX_ORBIT_RADIUS)`, mass in
`[50, 5000]`, color channels in `[20, 255]`, ellipticity in
`[-ORBIT_ELLIPTICITY, ORBIT_ELLIPTICITY]`. -/
def drawValid (d : SatDraw) : Prop :=
  -MAX_ORBIT_RADIUS ≤ d.px ∧ d.px < MAX_ORBIT_RADIUS ∧
  -MAX_ORBIT_RADIUS ≤ d.py ∧ d.py < MAX_ORBIT_RADIUS ∧
  50 ≤ d.mass ∧ d.mass ≤ 5000 ∧
  20 ≤ d.cr ∧ d.cr ≤ 255 ∧ 20 ≤ d.cg ∧ d.cg ≤ 255 ∧ 20 ≤ d.cb ∧ d.cb ≤ 255 ∧
  -ORBIT_ELLIPTICITY ≤ d.ell ∧ d.ell ≤ ORBIT_ELLIPTICITY

/-- The satellite `random_setup` builds from one draw: position, mass and
color from the draw, velocity from `orbit_velocity` against the sun with the
ellipticity perturbation added to its x component, empty trail. -/
def mkSatellite (d : SatDraw) : Planet :=
  let planet : Planet :=
    { pos := ⟨d.px, d.py⟩, mass := d.mass, color := ⟨d.cr, d.cg, d.cb, 255⟩ }
  let v := orbit_velocity planet sun
  { planet with velocity := ⟨v.x + d.ell, v.y⟩ }

/-- Function `random_setup`, with the random generator replaced by the drawn satellite
count `amount` (`gen_range(4..=12)`) and a function giving each satellite's
draws: builds `amount` satellites and appends the sun last. -/
def random_setup (amount : ℕ) (draw : ℕ → SatDraw) : List Planet :=
  ((List.range amount).map fun i => mkSatellite (draw i)) ++ [sun]

/-- Trail bound invariant for one body. -/
def trailOk (p : Planet) : Prop := p.trail.length ≤ TRAIL_LENGTH

/-- Trail bound invariant for the whole collection. -/
def allTrailsOk (objects : List Planet) : Prop := ∀ q ∈ objects, trailOk q

/-- A body the cull test keeps. -/
def withinCull (p : Planet) : Prop := p.pos.length ≤ CULL_DISTANCE

/-- Every body of the collection passes the cull test. -/
def allWithinCull (objects : List Planet) : Prop := ∀ q ∈ objects, withinCull q

/-- Every body of the collection has an empty trail. -/
def allTrailsEmpty (objects : List Planet) : Prop := ∀ q ∈ objects, q.trail = []

theorem Vec2.add_sub_cancel (a b : Vec2) : a + b - b = a := by
  ext <;> simp

instance : Inhabited Planet := ⟨{}⟩

theorem accumulatePass_paused (i : ℕ) (copy : List (ℕ × Planet)) (obj : Planet) :
    accumulatePass true i copy obj = obj := by
  induction copy generalizing obj with
  | nil => rfl
  | cons a t ih =>
    unfold accumulatePass
    rw [List.foldl_cons, if_neg (by simp)]
    exact ih obj

theorem accumulatePass_pos (paused : Bool) (i : ℕ) (copy : List (ℕ × Planet))
    (obj : Planet) : (accumulatePass paused i copy obj).pos = obj.pos := by
  induction copy generalizing obj with
  | nil => rfl
  | cons a t ih =>
    unfold accumulatePass
    rw [List.foldl_cons]
    by_cases hc : i ≠ a.1 ∧ paused = false
    · rw [if_pos hc]; exact ih _
    · rw [if_neg hc]; exact ih obj

theorem accumulatePass_mass (paused : Bool) (i : ℕ) (copy : List (ℕ × Planet))
    (obj : Planet) : (accumulatePass paused i copy obj).mass = obj.mass := by
  induction copy generalizing obj with
  | nil => rfl
  | cons a t ih =>
    unfold accumulatePass
    rw [List.foldl_cons]
    by_cases hc : i ≠ a.1 ∧ paused = false
    · rw [if_pos hc]; exact ih _
    · rw [if_neg hc]; exact ih obj

theorem accumulatePass_color (paused : Bool) (i : ℕ) (copy : List (ℕ × Planet))
    (obj : Planet) : (accumulatePass paused i copy obj).color = obj.color := by
  induction copy generalizing obj with
  | nil => rfl
  | cons a t ih =>
    unfold accumulatePass
    rw [List.foldl_cons]
    by_cases hc : i ≠ a.1 ∧ paused = false
    · rw [if_pos hc]; exact ih _
    · rw [if_neg hc]; exact ih obj

theorem accumulatePass_trail (paused : Bool) (i : ℕ) (copy : List (ℕ × Planet))
    (obj : Planet) : (accumulatePass paused i copy obj).trail = obj.trail := by
  induction copy generalizing obj with
  | nil => rfl
  | cons a t ih =>
    unfold accumulatePass
    rw [List.foldl_cons]
    by_cases hc : i ≠ a.1 ∧ paused = false
    · rw [if_pos hc]; exact ih _
    · rw [if_neg hc]; exact ih obj

theorem accumulatePass_false (i : ℕ) (copy : List (ℕ × Planet)) (obj : Planet) :
    accumulatePass false i copy obj =
      { obj with velocity := obj.velocity +
        (copy.map fun jp => if i ≠ jp.1 then gravityDelta obj jp.2 else 0).sum } := by
  induction copy generalizing obj with
  | nil => simp [accumulatePass]
  | cons a t ih =>
    unfold accumulatePass
    rw [List.foldl_cons]
    by_cases hc : i ≠ a.1
    · rw [if_pos ⟨hc, rfl⟩]
      rw [show List.foldl
          (fun acc jp => if i ≠ jp.1 ∧ false = false then acc.gravitate jp.2 else acc)
          (obj.gravitate a.2) t = accumulatePass false i t (obj.gravitate a.2) from rfl]
      rw [ih]
      show ({ obj with velocity := (obj.velocity + gravityDelta obj a.2) +
        (t.map fun jp => if i ≠ jp.1 then gravityDelta obj jp.2 else 0).sum } : Planet) = _
      rw [List.map_cons, List.sum_cons, if_pos hc, add_assoc]
    · rw [if_neg (fun hand => hc hand.1)]
      rw [show List.foldl
          (fun acc jp => if i ≠ jp.1 ∧ false = false then acc.gravitate jp.2 else acc)
          obj t = accumulatePass false i t obj from rfl]
      rw [ih, List.map_cons, List.sum_cons, if_neg hc, zero_add]

theorem sum_map_enumFrom (f : ℕ → Planet → Vec2) :
    ∀ (l : List Planet) (k : ℕ),
      ((l.enumFrom k).map fun jp => f jp.1 jp.2).sum =
        ∑ j ∈ Finset.range l.length, f (k + j) (l.getD j default) := by
  intro l
  induction l with
  | nil => intro k; simp
  | cons a t ih =>
    intro k
    rw [List.enumFrom_cons, List.map_cons, List.sum_cons, ih (k + 1),
      List.length_cons, Finset.sum_range_succ']
    have hcong : ∀ j ∈ Finset.range t.length,
        f (k + 1 + j) (t.getD j default) =
          f (k + (j + 1)) ((a :: t).getD (j + 1) default) := by
      intro j _
      rw [List.getD_cons_succ, show k + 1 + j = k + (j + 1) by omega]
    rw [Finset.sum_congr rfl hcong]
    simp [add_comm]

theorem snd_mem_of_mem_enumFrom :
    ∀ (l : List Planet) (k : ℕ) (ip : ℕ × Planet), ip ∈ l.enumFrom k → ip.2 ∈ l := by
  intro l
  induction l with
  | nil => intro k ip h; simp at h
  | cons a t ih =>
    intro k ip h
    rw [List.enumFrom_cons, List.mem_cons] at h
    rcases h with h | h
    · subst h; exact List.mem_cons_self a t
    · exact List.mem_cons_of_mem a (ih (k + 1) ip h)

theorem gravitateAll_length (paused : Bool) (objects : List Planet) :
    (gravitateAll paused objects).length = objects.length := by
  simp [gravitateAll]

theorem gravitateAll_paused_id (objects : List Planet) :
    gravitateAll true objects = objects := by
  unfold gravitateAll
  rw [List.map_congr_left (fun ip _ => accumulatePass_paused ip.1 objects.enum ip.2)]
  exact List.enum_map_snd objects

theorem mem_gravitateAll {paused : Bool} {objects : List Planet} {q : Planet}
    (hq : q ∈ gravitateAll paused objects) :
    ∃ p ∈ objects, q.pos = p.pos ∧ q.mass = p.mass ∧ q.color = p.color ∧
      q.trail = p.trail := by
  unfold gravitateAll at hq
  rw [List.mem_map] at hq
  obtain ⟨ip, hip, rfl⟩ := hq
  exact ⟨ip.2, snd_mem_of_mem_enumFrom objects 0 ip hip,
    accumulatePass_pos .., accumulatePass_mass .., accumulatePass_color ..,
    accumulatePass_trail ..⟩

theorem mem_cull_iff (objects : List Planet) (p : Planet) :
    p ∈ cull objects ↔ p ∈ objects ∧ p.pos.length ≤ CULL_DISTANCE := by
  unfold cull
  rw [List.mem_filter]
  simp

theorem gravitate_velocity (self other : Planet) :
    (self.gravitate other).velocity = self.velocity + gravityDelta self other := rfl

theorem gravitate_pos (self other : Planet) :
    (self.gravitate other).pos = self.pos := rfl

theorem gravitate_mass (self other : Planet) :
    (self.gravitate other).mass = self.mass := rfl

theorem gravitate_color (self other : Planet) :
    (self.gravitate other).color = self.color := rfl

theorem gravitate_trail (self other : Planet) :
    (self.gravitate other).trail = self.trail := rfl

theorem tick_paused_eq_cull (objects : List Planet) :
    tick true objects = cull objects := by
  show (if true = true then gravitateAll true (cull objects)
    else (gravitateAll true (cull objects)).map Planet.apply_velocity) = cull objects
  rw [if_pos rfl, gravitateAll_paused_id]

theorem tick_unpaused_eq (objects : List Planet) :
    tick false objects = (gravitateAll false (cull objects)).map Planet.apply_velocity :=
  rfl

theorem trailOk_apply_velocity (p : Planet) : trailOk p.apply_velocity := by
  unfold trailOk Planet.apply_velocity
  simp

theorem apply_velocity_trail_head (p : Planet) :
    p.apply_velocity.trail.head? = some p.pos := by
  show ((p.pos :: p.trail).take TRAIL_LENGTH).head? = some p.pos
  rw [show TRAIL_LENGTH = 999 + 1 from rfl, List.take_succ_cons]
  rfl

theorem allTrailsOk_cull {objects : List Planet} (h : allTrailsOk objects) :
    allTrailsOk (cull objects) := by
  intro q hq
  exact h q ((mem_cull_iff objects q).mp hq).1

theorem allTrailsOk_tick (paused : Bool) (objects : List Planet)
    (h : allTrailsOk objects) : allTrailsOk (tick paused objects) := by
  cases paused with
  | true =>
    rw [tick_paused_eq_cull]
    exact allTrailsOk_cull h
  | false =>
    rw [tick_unpaused_eq]
    intro q hq
    rw [List.mem_map] at hq
    obtain ⟨r, _, rfl⟩ := hq
    exact trailOk_apply_velocity r

theorem allTrailsOk_iterate (paused : Bool) (n : ℕ) (objects : List Planet)
    (h : allTrailsOk objects) : allTrailsOk ((tick paused)^[n] objects) := by
  induction n with
  | zero => simpa
  | succ n ih =>
    rw [Function.iterate_succ_apply']
    exact allTrailsOk_tick paused _ ih

/-- C1. `orbit_velocity` returns `tangent * v + center.velocity` where `v` is
the clamped circular-orbit speed and `tangent` the normalized 90-degree
rotation of the radius vector; the returned velocity minus the center's
velocity is perpendicular to the radius vector and has magnitude exactly
`min(sqrt(G*(M+m)/d), MAX_SPEED)`. -/
theorem orbit_velocity_correct (sat center : Planet) (h : sat.pos ≠ center.pos) :
    orbit_velocity sat center =
      Vec2.normalize ⟨-(sat.pos - center.pos).y, (sat.pos - center.pos).x⟩ *
          min (Real.sqrt (G * (center.mass + sat.mass) /
            Vec2.distance sat.pos center.pos)) MAX_SPEED +
        center.velocity ∧
    Vec2.dot (orbit_velocity sat center - center.velocity)
      (sat.pos - center.pos) = 0 ∧
    (orbit_velocity sat center - center.velocity).length =
      min (Real.sqrt (G * (center.mass + sat.mass) /
        Vec2.distance sat.pos center.pos)) MAX_SPEED := by
  have hdiff : sat.pos - center.pos ≠ 0 := by
    intro h0
    exact h ((Vec2.sub_eq_zero_iff _ _).mp h0)
  have hw : (⟨-(sat.pos - center.pos).y, (sat.pos - center.pos).x⟩ : Vec2) ≠ 0 := by
    intro h0
    apply hdiff
    have hx := congrArg Vec2.x h0
    have hy := congrArg Vec2.y h0
    simp at hx hy
    ext <;> simp <;> linarith
  have hv0 : 0 ≤ min (Real.sqrt (G * (center.mass + sat.mass) /
      Vec2.distance sat.pos center.pos)) MAX_SPEED :=
    le_min (Real.sqrt_nonneg _) (by norm_num [MAX_SPEED])
  have hsub : orbit_velocity sat center - center.velocity =
      Vec2.normalize ⟨-(sat.pos - center.pos).y, (sat.pos - center.pos).x⟩ *
        min (Real.sqrt (G * (center.mass + sat.mass) /
          Vec2.distance sat.pos center.pos)) MAX_SPEED := by
    show Vec2.normalize _ * _ + center.velocity - center.velocity = _
    exact Vec2.add_sub_cancel _ _
  refine ⟨rfl, ?_, ?_⟩
  · rw [hsub, Vec2.dot_smul_left]
    unfold Vec2.normalize
    rw [Vec2.dot_smul_left]
    have hzero : Vec2.dot ⟨-(sat.pos - center.pos).y, (sat.pos - center.pos).x⟩
        (sat.pos - center.pos) = 0 := by
      simp [Vec2.dot]
      ring
    rw [hzero]
    ring
  · rw [hsub, Vec2.length_smul, Vec2.length_normalize hw, mul_one,
      abs_of_nonneg hv0]

/-- Concrete satellite used to instantiate `orbit_velocity_correct`. -/
def satW : Planet := { pos := ⟨400, 0⟩, mass := 1000 }

/-- Witness for C1: `orbit_velocity_correct` applied to a satellite at
`(400, 0)` around the sun at the origin. -/
theorem orbit_velocity_correct_witness :
    orbit_velocity satW sun =
      Vec2.normalize ⟨-(satW.pos - sun.pos).y, (satW.pos - sun.pos).x⟩ *
          min (Real.sqrt (G * (sun.mass + satW.mass) /
            Vec2.distance satW.pos sun.pos)) MAX_SPEED +
        sun.velocity ∧
    Vec2.dot (orbit_velocity satW sun - sun.velocity) (satW.pos - sun.pos) = 0 ∧
    (orbit_velocity satW sun - sun.velocity).length =
      min (Real.sqrt (G * (sun.mass + satW.mass) /
        Vec2.distance satW.pos sun.pos)) MAX_SPEED :=
  orbit_velocity_correct satW sun (by
    intro h0
    have hx : (400 : ℝ) = 0 := congrArg Vec2.x h0
    norm_num at hx)

/-- C3. `gravitate` adds exactly `dir * a` to the velocity, with
`a = G * other.mass / distance_squared` (no division by `self.mass`) and
`dir` the unit vector from `self` toward `other`; it leaves position, mass,
color and trail unchanged. -/
theorem gravitate_correct (self other : Planet) (h : self.pos ≠ other.pos) :
    (self.gravitate other).velocity =
      self.velocity + Vec2.normalize (other.pos - self.pos) *
        (G * other.mass / Vec2.distance_squared self.pos other.pos) ∧
    (Vec2.normalize (other.pos - self.pos)).length = 1 ∧
    (self.gravitate other).pos = self.pos ∧
    (self.gravitate other).mass = self.mass ∧
    (self.gravitate other).color = self.color ∧
    (self.gravitate other).trail = self.trail := by
  refine ⟨rfl, ?_, rfl, rfl, rfl, rfl⟩
  apply Vec2.length_normalize
  intro h0
  exact h ((Vec2.sub_eq_zero_iff _ _).mp h0).symm

/-- C2. `apply_velocity` pushes the old position onto the front of the trail,
truncates to `TRAIL_LENGTH`, then moves the position by `velocity * 1.0`;
its trail is bounded by `TRAIL_LENGTH` and starts with the position held
immediately before the move, and the bound is preserved by any number of
ticks. -/
theorem apply_velocity_correct (p : Planet) (paused : Bool) (n : ℕ)
    (objects : List Planet) (h : allTrailsOk objects) :
    p.apply_velocity.trail = (p.pos :: p.trail).take TRAIL_LENGTH ∧
    p.apply_velocity.pos = p.pos + p.velocity * (1.0 : ℝ) ∧
    trailOk p.apply_velocity ∧
    p.apply_velocity.trail.head? = some p.pos ∧
    allTrailsOk ((tick paused)^[n] objects) :=
  ⟨rfl, rfl, trailOk_apply_velocity p, apply_velocity_trail_head p,
    allTrailsOk_iterate paused n objects h⟩

/-- Concrete planet with a one-entry trail, used to instantiate
`apply_velocity_correct`. -/
def pW : Planet :=
  { pos := ⟨1, 2⟩, mass := 100, velocity := ⟨3, 4⟩, trail := [⟨0, 0⟩] }

/-- Witness for C2: `apply_velocity_correct` at a concrete planet, one tick of
the empty collection. -/
theorem apply_velocity_correct_witness :
    pW.apply_velocity.trail = (pW.pos :: pW.trail).take TRAIL_LENGTH ∧
    pW.apply_velocity.pos = pW.pos + pW.velocity * (1.0 : ℝ) ∧
    trailOk pW.apply_velocity ∧
    pW.apply_velocity.trail.head? = some pW.pos ∧
    allTrailsOk ((tick false)^[1] []) :=
  apply_velocity_correct pW false 1 [] (by intro q hq; simp at hq)

/-- The velocity the snapshot semantics assigns to body `i` after force
accumulation: its own snapshot velocity plus the sum, over all other indices
`j` of the snapshot, of the gravity delta computed from the snapshot entries
`i` and `j` alone.  A `Finset` sum: no processing order appears. -/
def specVelocityAfterForces (objects : List Planet) (i : ℕ) : Vec2 :=
  (objects.getD i default).velocity +
    ∑ j ∈ Finset.range objects.length,
      if i ≠ j then gravityDelta (objects.getD i default) (objects.getD j default)
      else 0

theorem sum_map_enum (f : ℕ → Planet → Vec2) (l : List Planet) :
    (l.enum.map fun jp => f jp.1 jp.2).sum =
      ∑ j ∈ Finset.range l.length, f j (l.getD j default) := by
  rw [show l.enum = l.enumFrom 0 from rfl, sum_map_enumFrom]
  simp

theorem gravitateAll_false_getD (objects : List Planet) (i : ℕ)
    (hi : i < objects.length) :
    (gravitateAll false objects).getD i default =
      { objects.getD i default with velocity := specVelocityAfterForces objects i } := by
  have hlen : i < (gravitateAll false objects).length := by
    rw [gravitateAll_length]; exact hi
  rw [List.getD_eq_getElem _ default hlen]
  unfold gravitateAll
  rw [List.getElem_map, List.getElem_enum, accumulatePass_false]
  dsimp only
  rw [sum_map_enum (fun j q => if i ≠ j then gravityDelta objects[i] q else 0) objects]
  unfold specVelocityAfterForces
  rw [List.getD_eq_getElem objects default hi]

/-- C6. Force accumulation reads only the snapshot: the collection keeps its
length, body `i` of the result is the snapshot body `i` with its velocity
increased by an order-free `Finset` sum of per-pair deltas over the snapshot,
and each per-pair delta depends only on the two snapshot positions and the
attracting body's mass. -/
theorem force_accumulation_snapshot (objects : List Planet) (i : ℕ)
    (hi : i < objects.length) (p q p' q' : Planet)
    (h1 : p.pos = p'.pos) (h2 : q.pos = q'.pos) (h3 : q.mass = q'.mass) :
    (gravitateAll false objects).length = objects.length ∧
    (gravitateAll false objects).getD i default =
      { objects.getD i default with velocity := specVelocityAfterForces objects i } ∧
    gravityDelta p q = gravityDelta p' q' :=
  ⟨gravitateAll_length false objects, gravitateAll_false_getD objects i hi, by
    unfold gravityDelta
    rw [h1, h2, h3]⟩

/-- Concrete pair used to instantiate `gravitate_correct`. -/
def selfW : Planet := { pos := ⟨0, 0⟩, mass := 10 }

/-- Concrete attracting body used to instantiate `gravitate_correct`. -/
def otherW : Planet := { pos := ⟨3, 4⟩, mass := 20 }

/-- Witness for C3: `gravitate_correct` applied to two bodies at distance 5. -/
theorem gravitate_correct_witness :
    (selfW.gravitate otherW).velocity =
      selfW.velocity + Vec2.normalize (otherW.pos - selfW.pos) *
        (G * otherW.mass / Vec2.distance_squared selfW.pos otherW.pos) ∧
    (Vec2.normalize (otherW.pos - selfW.pos)).length = 1 ∧
    (selfW.gravitate otherW).pos = selfW.pos ∧
    (selfW.gravitate otherW).mass = selfW.mass ∧
    (selfW.gravitate otherW).color = selfW.color ∧
    (selfW.gravitate otherW).trail = selfW.trail :=
  gravitate_correct selfW otherW (by
    intro h0
    have hx : (0 : ℝ) = 3 := congrArg Vec2.x h0
    norm_num at hx)

/-- Witness for C6: the snapshot formula at index 0 of a two-body collection. -/
theorem force_accumulation_snapshot_witness :
    (gravitateAll false [selfW, otherW]).length = [selfW, otherW].length ∧
    (gravitateAll false [selfW, otherW]).getD 0 default =
      { [selfW, otherW].getD 0 default with
        velocity := specVelocityAfterForces [selfW, otherW] 0 } ∧
    gravityDelta selfW otherW = gravityDelta selfW otherW :=
  force_accumulation_snapshot [selfW, otherW] 0 (by simp) selfW otherW selfW otherW
    rfl rfl rfl

/-- C7. With the pause key held for the whole tick, force accumulation is a
no-op and the move phase is skipped: the tick reduces to the cull step, and on
a collection with every body inside the cull distance it leaves every body
(position, velocity, trail — the whole collection) exactly unchanged. -/
theorem paused_tick_frozen (objects : List Planet) (h : allWithinCull objects) :
    gravitateAll true objects = objects ∧
    tick true objects = cull objects ∧
    tick true objects = objects := by
  refine ⟨gravitateAll_paused_id objects, tick_paused_eq_cull objects, ?_⟩
  rw [tick_paused_eq_cull]
  unfold cull
  rw [List.filter_eq_self]
  intro a ha
  simp only [decide_eq_true_eq]
  exact h a ha

/-- Witness for C7: a paused tick of a single body at the origin. -/
theorem paused_tick_frozen_witness :
    gravitateAll true [selfW] = [selfW] ∧
    tick true [selfW] = cull [selfW] ∧
    tick true [selfW] = [selfW] :=
  paused_tick_frozen [selfW] (by
    intro q hq
    rw [List.mem_singleton] at hq
    subst hq
    show selfW.pos.length ≤ CULL_DISTANCE
    have h0 : selfW.pos.length = 0 := by
      simp [selfW, Vec2.length, Vec2.length_sq]
    rw [h0]
    norm_num [CULL_DISTANCE])

/-- C9. Culling comes first in every frame, before force accumulation, the
move phase, and the pause branch: a body beyond `CULL_DISTANCE` is dropped by
the cull step, force accumulation only ever sees bodies within the distance,
a paused frame still removes it, and the tick factors as cull, then
accumulate, then (unless paused) move. -/
theorem cull_first (objects : List Planet) (p : Planet) (paused : Bool)
    (h : CULL_DISTANCE < p.pos.length) :
    p ∉ cull objects ∧
    allWithinCull (cull objects) ∧
    tick true objects = cull objects ∧
    p ∉ tick true objects ∧
    tick paused objects =
      (if paused then gravitateAll paused (cull objects)
       else (gravitateAll paused (cull objects)).map Planet.apply_velocity) := by
  have hnot : p ∉ cull objects := by
    intro hmem
    exact absurd ((mem_cull_iff objects p).mp hmem).2 (not_le.mpr h)
  refine ⟨hnot, ?_, tick_paused_eq_cull objects, ?_, ?_⟩
  · intro q hq
    exact ((mem_cull_iff objects q).mp hq).2
  · rw [tick_paused_eq_cull]
    exact hnot
  · cases paused <;> rfl

/-- Concrete body beyond the cull distance, used in witnesses and in the C4
counterexample's tick. -/
def pFar : Planet := { pos := ⟨2000, 0⟩, mass := 1 }

theorem pFar_length : pFar.pos.length = 2000 := by
  have h1 : (2000 : ℝ) ^ 2 + 0 ^ 2 = 2000 ^ 2 := by norm_num
  show Real.sqrt ((2000 : ℝ) ^ 2 + 0 ^ 2) = 2000
  rw [h1, Real.sqrt_sq (by norm_num : (0 : ℝ) ≤ 2000)]

/-- Witness for C9: a body at `(2000, 0)` is culled from every frame, paused
or not. -/
theorem cull_first_witness :
    pFar ∉ cull [pFar] ∧
    allWithinCull (cull [pFar]) ∧
    tick true [pFar] = cull [pFar] ∧
    pFar ∉ tick true [pFar] ∧
    tick false [pFar] =
      (if false then gravitateAll false (cull [pFar])
       else (gravitateAll false (cull [pFar])).map Planet.apply_velocity) :=
  cull_first [pFar] pFar false (by
    rw [pFar_length]
    norm_num [CULL_DISTANCE])

/-- Concrete body that moves beyond the cull distance within a single tick. -/
def pFast : Planet := { pos := ⟨0, 0⟩, mass := 1, velocity := ⟨2000, 0⟩ }

theorem cull_pFast : cull [pFast] = [pFast] := by
  unfold cull
  rw [List.filter_cons_of_pos]
  · rfl
  · simp only [decide_eq_true_eq]
    show pFast.pos.length ≤ CULL_DISTANCE
    have h0 : pFast.pos.length = 0 := by
      simp [pFast, Vec2.length, Vec2.length_sq]
    rw [h0]
    norm_num [CULL_DISTANCE]

theorem tick_pFast : tick false [pFast] = [pFast.apply_velocity] := by
  rw [tick_unpaused_eq, cull_pFast]
  rfl

theorem pFast_moved_pos : pFast.apply_velocity.pos = ⟨2000, 0⟩ := by
  show pFast.pos + pFast.velocity * (1.0 : ℝ) = _
  ext
  · show (0 : ℝ) + 2000 * 1.0 = 2000
    norm_num
  · show (0 : ℝ) + 0 * 1.0 = 0
    norm_num

/-- C4 counterexample: the claim places culling after force accumulation and
movement (step 4 of the tick), which would leave no body beyond
`CULL_DISTANCE` at the end of a tick; but a body starting at the origin with
velocity `(2000, 0)` ends the tick at distance `2000 > CULL_DISTANCE` and is
still in the collection. -/
theorem cull_not_last_counterexample :
    (tick false [pFast]).getD 0 default = pFast.apply_velocity ∧
    CULL_DISTANCE < ((tick false [pFast]).getD 0 default).pos.length ∧
    ¬ allWithinCull (tick false [pFast]) := by
  have hget : (tick false [pFast]).getD 0 default = pFast.apply_velocity := by
    rw [tick_pFast]
    rfl
  have hlen : CULL_DISTANCE < pFast.apply_velocity.pos.length := by
    rw [pFast_moved_pos]
    have h1 : (2000 : ℝ) ^ 2 + 0 ^ 2 = 2000 ^ 2 := by norm_num
    show CULL_DISTANCE < Real.sqrt ((2000 : ℝ) ^ 2 + 0 ^ 2)
    rw [h1, Real.sqrt_sq (by norm_num : (0 : ℝ) ≤ 2000)]
    norm_num [CULL_DISTANCE]
  refine ⟨hget, by rw [hget]; exact hlen, ?_⟩
  intro hall
  have hmem : pFast.apply_velocity ∈ tick false [pFast] := by
    rw [tick_pFast]
    exact List.mem_singleton.mpr rfl
  exact absurd (hall _ hmem) (not_le.mpr hlen)

/-- C4 (amended). The cull step removes exactly the bodies whose distance
from the origin exceeds `CULL_DISTANCE` — bodies within the threshold are
never removed by it — but it runs at the start of the frame, before force
accumulation and movement, not as the tick's final step. -/
theorem cull_exactly_threshold (objects : List Planet) (p : Planet)
    (paused : Bool) :
    (p ∈ cull objects ↔ p ∈ objects ∧ p.pos.length ≤ CULL_DISTANCE) ∧
    tick paused objects =
      (if paused then gravitateAll paused (cull objects)
       else (gravitateAll paused (cull objects)).map Planet.apply_velocity) := by
  refine ⟨mem_cull_iff objects p, ?_⟩
  cases paused <;> rfl

/-- The properties C5 requires of one generated satellite: mass in the
configured range and distance from the sun at most `MAX_ORBIT_RADIUS * √2`. -/
def satBody (p : Planet) : Prop :=
  50 ≤ p.mass ∧ p.mass ≤ 5000 ∧
  Vec2.distance p.pos sun.pos ≤ MAX_ORBIT_RADIUS * Real.sqrt 2

/-- Every body except the last (the sun) satisfies `satBody`. -/
def allSatsOk (objects : List Planet) : Prop :=
  ∀ p ∈ objects.dropLast, satBody p

theorem mkSatellite_satBody {d : SatDraw} (hd : drawValid d) :
    satBody (mkSatellite d) := by
  obtain ⟨hpx1, hpx2, hpy1, hpy2, hm1, hm2, _⟩ := hd
  have hpx2' : d.px ≤ 400 := le_of_lt hpx2
  have hpy2' : d.py ≤ 400 := le_of_lt hpy2
  have hpx1' : (-400 : ℝ) ≤ d.px := hpx1
  have hpy1' : (-400 : ℝ) ≤ d.py := hpy1
  refine ⟨hm1, hm2, ?_⟩
  show Real.sqrt ((d.px - 0) ^ 2 + (d.py - 0) ^ 2) ≤ MAX_ORBIT_RADIUS * Real.sqrt 2
  have h1 : d.px ^ 2 ≤ 400 ^ 2 := sq_le_sq' (by linarith) hpx2'
  have h2 : d.py ^ 2 ≤ 400 ^ 2 := sq_le_sq' (by linarith) hpy2'
  have hb : (d.px - 0) ^ 2 + (d.py - 0) ^ 2 ≤ 320000 := by
    rw [sub_zero, sub_zero]
    norm_num at h1 h2 ⊢
    linarith
  calc Real.sqrt ((d.px - 0) ^ 2 + (d.py - 0) ^ 2)
      ≤ Real.sqrt 320000 := Real.sqrt_le_sqrt hb
    _ = MAX_ORBIT_RADIUS * Real.sqrt 2 := by
        rw [show (320000 : ℝ) = 400 ^ 2 * 2 by norm_num,
          Real.sqrt_mul (by positivity) 2,
          Real.sqrt_sq (by norm_num : (0 : ℝ) ≤ 400)]
        rfl

/-- C5. `random_setup` returns `amount + 1` bodies — between 5 and 13 for the
drawn `amount ∈ [4, 12]` — with the sun (zero position and velocity, mass
`1500000`) appended last; every satellite's mass is in `[50, 5000]` and its
distance from the sun is at most `MAX_ORBIT_RADIUS * √2`. -/
theorem random_setup_correct (amount : ℕ) (draw : ℕ → SatDraw)
    (h4 : 4 ≤ amount) (h12 : amount ≤ 12)
    (hd : ∀ i < amount, drawValid (draw i)) :
    (random_setup amount draw).length = amount + 1 ∧
    5 ≤ (random_setup amount draw).length ∧
    (random_setup amount draw).length ≤ 13 ∧
    (random_setup amount draw).getLast? = some sun ∧
    sun.pos = 0 ∧ sun.velocity = 0 ∧ sun.mass = 1500000 ∧
    allSatsOk (random_setup amount draw) := by
  have hlen : (random_setup amount draw).length = amount + 1 := by
    simp [random_setup]
  refine ⟨hlen, by omega, by omega, ?_, rfl, rfl, rfl, ?_⟩
  · unfold random_setup
    exact List.getLast?_concat _
  · intro p hp
    unfold random_setup at hp
    rw [List.dropLast_concat, List.mem_map] at hp
    obtain ⟨i, hi, rfl⟩ := hp
    rw [List.mem_range] at hi
    exact mkSatellite_satBody (hd i hi)

/-- Concrete draw used to instantiate `random_setup_correct`. -/
def dW : SatDraw := ⟨100, 100, 50, 20, 20, 20, 0⟩

/-- Witness for C5: `random_setup` with `amount = 4` and a constant valid
draw. -/
theorem random_setup_correct_witness :
    (random_setup 4 fun _ => dW).length = 4 + 1 ∧
    5 ≤ (random_setup 4 fun _ => dW).length ∧
    (random_setup 4 fun _ => dW).length ≤ 13 ∧
    (random_setup 4 fun _ => dW).getLast? = some sun ∧
    sun.pos = 0 ∧ sun.velocity = 0 ∧ sun.mass = 1500000 ∧
    allSatsOk (random_setup 4 fun _ => dW) :=
  random_setup_correct 4 (fun _ => dW) (by norm_num) (by norm_num)
    (fun i _ => by
      norm_num [drawValid, dW, MAX_ORBIT_RADIUS, ORBIT_ELLIPTICITY])

/-- Guarded `gravitate` making the division-by-zero failure mode explicit:
it fails exactly when the squared distance between the two bodies is zero. -/
def gravitateChecked (self other : Planet) : Option Planet :=
  if Vec2.distance_squared self.pos other.pos = 0 then none
  else some (self.gravitate other)

/-- Guarded `orbit_velocity`: fails exactly when the distance between
satellite and center is zero. -/
def orbit_velocityChecked (sat center : Planet) : Option Vec2 :=
  if Vec2.distance sat.pos center.pos = 0 then none
  else some (orbit_velocity sat center)

theorem distance_squared_eq_zero_iff (a b : Vec2) :
    Vec2.distance_squared a b = 0 ↔ a = b := by
  unfold Vec2.distance_squared
  rw [Vec2.length_sq_eq_zero_iff, Vec2.sub_eq_zero_iff]

theorem distance_eq_zero_iff (a b : Vec2) : Vec2.distance a b = 0 ↔ a = b := by
  unfold Vec2.distance
  rw [Vec2.length_eq_zero_iff, Vec2.sub_eq_zero_iff]

/-- C8. Under the distinct-positions precondition none of the denominators of
`gravitate` (squared distance, length of the direction vector) or of
`orbit_velocity` (distance) vanishes, and the guarded versions succeed with
the unguarded results; coinciding positions are the only failure mode of
either guarded operation. -/
theorem zero_distance_only_failure (self other sat center a b : Planet)
    (h1 : self.pos ≠ other.pos) (h2 : sat.pos ≠ center.pos) :
    Vec2.distance_squared self.pos other.pos ≠ 0 ∧
    (other.pos - self.pos).length ≠ 0 ∧
    Vec2.distance sat.pos center.pos ≠ 0 ∧
    gravitateChecked self other = some (self.gravitate other) ∧
    orbit_velocityChecked sat center = some (orbit_velocity sat center) ∧
    (gravitateChecked a b = none ↔ a.pos = b.pos) ∧
    (orbit_velocityChecked a b = none ↔ a.pos = b.pos) := by
  have hd2 : Vec2.distance_squared self.pos other.pos ≠ 0 := fun h0 =>
    h1 ((distance_squared_eq_zero_iff _ _).mp h0)
  have hdist : Vec2.distance sat.pos center.pos ≠ 0 := fun h0 =>
    h2 ((distance_eq_zero_iff _ _).mp h0)
  refine ⟨hd2, ?_, hdist, ?_, ?_, ?_, ?_⟩
  · intro h0
    exact h1 ((Vec2.sub_eq_zero_iff _ _).mp ((Vec2.length_eq_zero_iff _).mp h0)).symm
  · unfold gravitateChecked
    rw [if_neg hd2]
  · unfold orbit_velocityChecked
    rw [if_neg hdist]
  · unfold gravitateChecked
    by_cases hab : Vec2.distance_squared a.pos b.pos = 0
    · rw [if_pos hab]
      simp [(distance_squared_eq_zero_iff _ _).mp hab]
    · rw [if_neg hab]
      constructor
      · intro h0
        simp at h0
      · intro h0
        exact absurd ((distance_squared_eq_zero_iff a.pos b.pos).mpr h0) hab
  · unfold orbit_velocityChecked
    by_cases hab : Vec2.distance a.pos b.pos = 0
    · rw [if_pos hab]
      simp [(distance_eq_zero_iff _ _).mp hab]
    · rw [if_neg hab]
      constructor
      · intro h0
        simp at h0
      · intro h0
        exact absurd ((distance_eq_zero_iff a.pos b.pos).mpr h0) hab

/-- Witness for C8: the guarded operations succeed on concrete distinct
bodies. -/
theorem zero_distance_only_failure_witness :
    Vec2.distance_squared selfW.pos otherW.pos ≠ 0 ∧
    (otherW.pos - selfW.pos).length ≠ 0 ∧
    Vec2.distance satW.pos sun.pos ≠ 0 ∧
    gravitateChecked selfW otherW = some (selfW.gravitate otherW) ∧
    orbit_velocityChecked satW sun = some (orbit_velocity satW sun) ∧
    (gravitateChecked selfW otherW = none ↔ selfW.pos = otherW.pos) ∧
    (orbit_velocityChecked selfW otherW = none ↔ selfW.pos = otherW.pos) :=
  zero_distance_only_failure selfW otherW satW sun selfW otherW
    (by
      intro h0
      have hx : (0 : ℝ) = 3 := congrArg Vec2.x h0
      norm_num at hx)
    (by
      intro h0
      have hx : (400 : ℝ) = 0 := congrArg Vec2.x h0
      norm_num at hx)

/-- The trail the spec expects after `n` moves from an empty trail: the
positions held before each of the `n` moves, most recent first, truncated to
`TRAIL_LENGTH`. -/
def expectedTrail (n : ℕ) (p : Planet) : List Vec2 :=
  ((List.range n).map fun k => (Planet.apply_velocity^[n - 1 - k] p).pos).take
    TRAIL_LENGTH

theorem take_cons_take (a : Vec2) (l : List Vec2) :
    (a :: l.take TRAIL_LENGTH).take TRAIL_LENGTH = (a :: l).take TRAIL_LENGTH := by
  rw [show TRAIL_LENGTH = 999 + 1 from rfl, List.take_succ_cons,
    List.take_succ_cons, List.take_take, min_eq_left (by norm_num)]

theorem iterate_apply_velocity_trail (p : Planet) (hp : p.trail = []) (n : ℕ) :
    (Planet.apply_velocity^[n] p).trail = expectedTrail n p := by
  induction n with
  | zero => simp [expectedTrail, hp]
  | succ n ih =>
    rw [Function.iterate_succ_apply']
    show ((Planet.apply_velocity^[n] p).pos ::
      (Planet.apply_velocity^[n] p).trail).take TRAIL_LENGTH = expectedTrail (n + 1) p
    rw [ih]
    unfold expectedTrail
    have hlist : ((List.range (n + 1)).map fun k =>
        (Planet.apply_velocity^[n + 1 - 1 - k] p).pos) =
        (Planet.apply_velocity^[n] p).pos ::
          ((List.range n).map fun k => (Planet.apply_velocity^[n - 1 - k] p).pos) := by
      rw [List.range_succ_eq_map, List.map_cons, List.map_map]
      congr 1
      apply List.map_congr_left
      intro a ha
      show (Planet.apply_velocity^[n + 1 - 1 - (a + 1)] p).pos =
        (Planet.apply_velocity^[n - 1 - a] p).pos
      rw [show n + 1 - 1 - (a + 1) = n - 1 - a by omega]
    rw [hlist]
    exact take_cons_take _ _

/-- C10. Every body `random_setup` returns — satellites and the sun alike —
has an empty trail (so the trail bound holds at initialization), and from an
empty trail `n` moves leave exactly the `n` pre-move positions in the trail,
most recent first, truncated to `TRAIL_LENGTH`. -/
theorem trails_empty_at_reset (amount : ℕ) (draw : ℕ → SatDraw) (p : Planet)
    (n : ℕ) (hp : p.trail = []) :
    allTrailsEmpty (random_setup amount draw) ∧
    allTrailsOk (random_setup amount draw) ∧
    (Planet.apply_velocity^[n] p).trail = expectedTrail n p := by
  have hempty : allTrailsEmpty (random_setup amount draw) := by
    intro q hq
    unfold random_setup at hq
    rw [List.mem_append] at hq
    rcases hq with hq | hq
    · rw [List.mem_map] at hq
      obtain ⟨i, _, rfl⟩ := hq
      rfl
    · rw [List.mem_singleton] at hq
      subst hq
      rfl
  refine ⟨hempty, ?_, iterate_apply_velocity_trail p hp n⟩
  intro q hq
  unfold trailOk
  rw [hempty q hq]
  simp

/-- Witness for C10: the generated collection for a concrete draw, and two
moves of a satellite starting with an empty trail. -/
theorem trails_empty_at_reset_witness :
    allTrailsEmpty (random_setup 4 fun _ => dW) ∧
    allTrailsOk (random_setup 4 fun _ => dW) ∧
    (Planet.apply_velocity^[2] satW).trail = expectedTrail 2 satW :=
  trails_empty_at_reset 4 (fun _ => dW) satW 2 rfl

end Planets
